import Mathlib

/-!
Shallow embedding of the strategy layer of the PDFQAAgent repository.

External collaborators (text splitters, vector database, embedding model,
LLM) are modelled as function parameters returning `Except Err`, mirroring
how the Python code calls them inside `try`/`except` blocks.  Python dicts
carrying chunk metadata are modelled as association lists, Python floats
as rationals, and raised exceptions as the `Except.error` constructor.
-/

namespace PDFQA

/-- Error values standing in for Python exceptions. -/
abbrev Err := String

/-- A metadata value: Python dict values used by the code are strings,
integers and booleans. -/
inductive MVal where
  | s (v : String)
  | n (v : Nat)
  | b (v : Bool)
deriving DecidableEq, Repr

/-- A metadata mapping (Python dict), as an association list where the
most recent write for a key is found first. -/
abbrev Metadata := List (String × MVal)

/-- Dict write: `m[k] = v` (also models `{**m, k: v}` overrides). -/
def Metadata.set (m : Metadata) (k : String) (v : MVal) : Metadata :=
  (k, v) :: m.filter (fun p => p.1 ≠ k)

/-- Dict read: `m.get(k)`. -/
def Metadata.get? (m : Metadata) (k : String) : Option MVal :=
  (m.find? (fun p => p.1 == k)).map (fun p => p.2)

/-- A chunk record produced by a chunking strategy:
`{"content": ..., "metadata": ...}`. -/
structure Chunk where
  content : String
  metadata : Metadata
deriving DecidableEq, Repr

/-- A retrieved snippet: a chunk record annotated by retrieval scores.
Absent dict keys are `none`. -/
structure Doc where
  content : String
  metadata : Metadata
  similarity_score : Option ℚ := none
  hybrid_score : Option ℚ := none
  relevance_score : Option ℚ := none
deriving DecidableEq, Repr

/-- Equality of modelled call results is decidable, so concrete runs can
be checked by evaluation. -/
instance {ε α : Type} [DecidableEq ε] [DecidableEq α] :
    DecidableEq (Except ε α)
  | .error e, .error f =>
    if h : e = f then .isTrue (by rw [h]) else
      .isFalse (fun hh => h (by cases hh; rfl))
  | .error _, .ok _ => .isFalse (fun hh => by cases hh)
  | .ok _, .error _ => .isFalse (fun hh => by cases hh)
  | .ok a, .ok b =>
    if h : a = b then .isTrue (by rw [h]) else
      .isFalse (fun hh => h (by cases hh; rfl))

/-- The external text splitter consumed by a chunking strategy
(`split_text` of the recursive or the semantic splitter). -/
abbrev SplitFn := String → Except Err (List String)

/-- The vector store as seen by retrieval strategies:
`similarity_search(query, k)`. -/
abbrev VS := String → Nat → Except Err (List Doc)

/-! Python string primitives, modelled over the character sequence
(`str.lower` restricted to ASCII letters, `str.split()` on whitespace
runs, slicing, `str.endswith`, `str.startswith`). -/

/-- ASCII lowercasing of one character (Python `str.lower`). -/
def lowerChar (c : Char) : Char :=
  if 65 ≤ c.toNat ∧ c.toNat ≤ 90 then Char.ofNat (c.toNat + 32) else c

/-- Python `str.lower()`. -/
def pyLower (s : String) : String :=
  String.mk (s.data.map lowerChar)

/-- Cut a character list at whitespace characters. -/
def splitWsAux : List Char → List Char → List (List Char)
  | [], acc => [acc.reverse]
  | c :: cs, acc =>
    if c.isWhitespace then acc.reverse :: splitWsAux cs []
    else splitWsAux cs (c :: acc)

/-- Python `str.split()` before dropping empty pieces. -/
def pySplitWs (s : String) : List String :=
  (splitWsAux s.data []).map String.mk

/-- Python slicing `s[:n]` (by characters). -/
def takeChars (s : String) (n : Nat) : String :=
  String.mk (s.data.take n)

/-- Python `s.endswith(c)` for a one-character suffix. -/
def endsWithChar (s : String) (c : Char) : Bool :=
  decide (s.data.getLast? = some c)

/-- Python `s.startswith(w)`. -/
def startsWithStr (s w : String) : Bool :=
  decide (s.data.take w.data.length = w.data)

/-- `set(s.lower().split())`: the distinct lowercased whitespace-split
terms of a string.  Python `str.split()` drops empty pieces; a Python
set is unordered, so only membership and size of this list matter. -/
def termSet (s : String) : List String :=
  ((pySplitWs (pyLower s)).filter (fun t => t ≠ "")).dedup

/-! ### Stable descending sort

Python `list.sort(key=key, reverse=True)` / `sorted(..., reverse=True)`
is a stable descending sort; we embed it as an insertion sort that
inserts each later element after the already-placed elements of equal
key. -/

/-- Insert `x` into a descending-sorted list, after equal keys. -/
def insertDesc {α : Type} (key : α → ℚ) (x : α) : List α → List α
  | [] => [x]
  | y :: ys => if key x ≤ key y then y :: insertDesc key x ys else x :: y :: ys

/-- Stable descending sort by `key`. -/
def sortByDesc {α : Type} (key : α → ℚ) (l : List α) : List α :=
  l.foldl (fun acc x => insertDesc key x acc) []

theorem mem_insertDesc {α : Type} (key : α → ℚ) (x a : α) (l : List α) :
    a ∈ insertDesc key x l ↔ a = x ∨ a ∈ l := by
  induction l with
  | nil => simp [insertDesc]
  | cons y ys ih =>
    by_cases h : key x ≤ key y
    · simp only [insertDesc, if_pos h, List.mem_cons, ih]
      tauto
    · simp only [insertDesc, if_neg h, List.mem_cons]

theorem perm_insertDesc {α : Type} (key : α → ℚ) (x : α) (l : List α) :
    (insertDesc key x l).Perm (x :: l) := by
  induction l with
  | nil => simp [insertDesc]
  | cons y ys ih =>
    by_cases h : key x ≤ key y
    · simp only [insertDesc, if_pos h]
      exact ((ih.cons y).trans (List.Perm.swap x y ys))
    · simp [insertDesc, if_neg h]

theorem sorted_insertDesc {α : Type} (key : α → ℚ) (x : α) (l : List α)
    (h : l.Sorted (fun a b => key b ≤ key a)) :
    (insertDesc key x l).Sorted (fun a b => key b ≤ key a) := by
  induction l with
  | nil => simp [insertDesc]
  | cons y ys ih =>
    rw [List.sorted_cons] at h
    obtain ⟨hy, hys⟩ := h
    by_cases hxy : key x ≤ key y
    · rw [insertDesc, if_pos hxy, List.sorted_cons]
      refine ⟨?_, ih hys⟩
      intro b hb
      rcases (mem_insertDesc key x b ys).mp hb with hbx | hbm
      · exact hbx ▸ hxy
      · exact hy b hbm
    · rw [insertDesc, if_neg hxy, List.sorted_cons]
      refine ⟨?_, List.sorted_cons.mpr ⟨hy, hys⟩⟩
      intro b hb
      rcases List.mem_cons.mp hb with hby | hbm
      · exact hby ▸ le_of_not_le hxy
      · exact le_trans (hy b hbm) (le_of_not_le hxy)

theorem foldl_insertDesc_perm {α : Type} (key : α → ℚ) (l acc : List α) :
    (l.foldl (fun a x => insertDesc key x a) acc).Perm (acc ++ l) := by
  induction l generalizing acc with
  | nil => simp
  | cons x xs ih =>
    simp only [List.foldl_cons]
    refine (ih (insertDesc key x acc)).trans ?_
    refine (List.Perm.append_right xs ((perm_insertDesc key x acc))).trans ?_
    exact (List.perm_middle).symm

theorem sortByDesc_perm {α : Type} (key : α → ℚ) (l : List α) :
    (sortByDesc key l).Perm l := by
  simpa using foldl_insertDesc_perm key l []

theorem foldl_insertDesc_sorted {α : Type} (key : α → ℚ) (l acc : List α)
    (h : acc.Sorted (fun a b => key b ≤ key a)) :
    (l.foldl (fun a x => insertDesc key x a) acc).Sorted (fun a b => key b ≤ key a) := by
  induction l generalizing acc with
  | nil => simpa
  | cons x xs ih =>
    simp only [List.foldl_cons]
    exact ih (insertDesc key x acc) (sorted_insertDesc key x acc h)

theorem sortByDesc_sorted {α : Type} (key : α → ℚ) (l : List α) :
    (sortByDesc key l).Sorted (fun a b => key b ≤ key a) := by
  exact foldl_insertDesc_sorted key l [] (by simp)

/-! ### Chunking strategies (src/services/chunking_strategies.py)

The external library splitters (`RecursiveCharacterTextSplitter.split_text`
and `SemanticChunker.split_text`) are out of scope (spec section 1) and are
passed in as `SplitFn` parameters; each strategy wraps the split result
into chunk records exactly as the source does. -/

/-- `RecursiveChunkingStrategy.chunk_text`: split, then wrap each piece
with metadata extended by `chunk_id`, `chunk_size`, and the tag
`"recursive"`; library failures propagate (the source re-raises). -/
def RecursiveChunkingStrategy.chunk_text (split_text : SplitFn)
    (text : String) (metadata : Metadata) : Except Err (List Chunk) :=
  match split_text text with
  | .error e => .error e
  | .ok chunks =>
      .ok (chunks.enum.map (fun p =>
        { content := p.2
          metadata :=
            ((metadata.set "chunk_id" (MVal.n p.1)).set
              "chunk_size" (MVal.n p.2.length)).set
              "chunking_strategy" (MVal.s "recursive") }))

/-- `SemanticChunkingStrategy.chunk_text`: same shape with tag
`"semantic"`; library failures propagate (the source re-raises). -/
def SemanticChunkingStrategy.chunk_text (split_text : SplitFn)
    (text : String) (metadata : Metadata) : Except Err (List Chunk) :=
  match split_text text with
  | .error e => .error e
  | .ok chunks =>
      .ok (chunks.enum.map (fun p =>
        { content := p.2
          metadata :=
            ((metadata.set "chunk_id" (MVal.n p.1)).set
              "chunk_size" (MVal.n p.2.length)).set
              "chunking_strategy" (MVal.s "semantic") }))

/-- The in-place metadata rewrite
`chunk["metadata"]["chunking_strategy"] = "hybrid"`. -/
def tagHybrid (c : Chunk) : Chunk :=
  { c with metadata := c.metadata.set "chunking_strategy" (MVal.s "hybrid") }

/-- `HybridChunkingStrategy.chunk_text`: route on `len(text) > 10000`
to the semantic or the recursive delegate, rewrite the strategy tag of
each produced chunk to `"hybrid"`; if anything in the `try` block raised,
return `self.recursive_strategy.chunk_text(text, metadata)` as is. -/
def HybridChunkingStrategy.chunk_text (split_sem split_rec : SplitFn)
    (text : String) (metadata : Metadata) : Except Err (List Chunk) :=
  match (if text.length > 10000 then
          SemanticChunkingStrategy.chunk_text split_sem text metadata
        else
          RecursiveChunkingStrategy.chunk_text split_rec text metadata) with
  | .ok chunks => .ok (chunks.map tagHybrid)
  | .error _ => RecursiveChunkingStrategy.chunk_text split_rec text metadata

/-- The closed set of chunking strategy classes the factory knows. -/
inductive ChunkStrategyKind where
  | recursive
  | semantic
  | contextual
  | hybrid
deriving DecidableEq, Repr

/-- `ChunkingStrategyFactory.create_strategy`: dictionary lookup with a
warning-and-default to `"recursive"` for unknown tags. -/
def ChunkingStrategyFactory.create_strategy (strategy_type : String) :
    ChunkStrategyKind :=
  let known := ["recursive", "semantic", "contextual", "hybrid"]
  let t := if strategy_type ∈ known then strategy_type else "recursive"
  if t = "semantic" then ChunkStrategyKind.semantic
  else if t = "contextual" then ChunkStrategyKind.contextual
  else if t = "hybrid" then ChunkStrategyKind.hybrid
  else ChunkStrategyKind.recursive

/-- The closed set of retriever strategy classes the factory knows. -/
inductive RetrieverKind where
  | basic
  | hybrid
  | contextual
deriving DecidableEq, Repr

/-- `RetrieverFactory.create_retriever`: dictionary lookup with a
warning-and-default to `"basic"` for unknown tags. -/
def RetrieverFactory.create_retriever (strategy_type : String) :
    RetrieverKind :=
  let known := ["basic", "hybrid", "contextual"]
  let t := if strategy_type ∈ known then strategy_type else "basic"
  if t = "hybrid" then RetrieverKind.hybrid
  else if t = "contextual" then RetrieverKind.contextual
  else RetrieverKind.basic

/-! ### Retrieval strategies (src/services/retrieval_service.py) -/

/-- `BasicRetrieverStrategy.retrieve`: one similarity query with k=5;
on any error, log and return `[]`. -/
def BasicRetrieverStrategy.retrieve (query : String) (vector_store : VS) :
    List Doc :=
  match vector_store query 5 with
  | .ok results => results
  | .error _ => []

/-- `HybridRetrieverStrategy.retrieve` with constructor weights
(defaults `0.7` and `0.3`): similarity query with k=8, per-candidate
keyword score from term-set overlap, blended `hybrid_score`, stable
descending sort, top 5; on any error fall back to the basic strategy. -/
def HybridRetrieverStrategy.retrieve
    (similarity_weight keyword_weight : ℚ)
    (query : String) (vector_store : VS) : List Doc :=
  match vector_store query 8 with
  | .error _ => BasicRetrieverStrategy.retrieve query vector_store
  | .ok similarity_results =>
    let query_terms := termSet query
    let keyword_results := similarity_results.map (fun doc =>
      let keyword_overlap :=
        (query_terms.filter (fun t => t ∈ termSet doc.content)).length
      let keyword_score : ℚ :=
        if query_terms.isEmpty then 0
        else (keyword_overlap : ℚ) / (query_terms.length : ℚ)
      { doc with hybrid_score := some (similarity_weight *
          doc.similarity_score.getD 0 + keyword_weight * keyword_score) })
    (sortByDesc (fun x => x.hybrid_score.getD 0) keyword_results).take 5

/-- `ContextualRetrieverStrategy._expand_query`: the original query,
a trailing question mark variant when absent, and a leading
`"what is "` variant when the lowercased query does not start with one
of the five interrogative markers. -/
def ContextualRetrieverStrategy.expand_query (query : String) : List String :=
  let expanded := [query]
  let expanded :=
    if ! endsWithChar query '?' then expanded ++ [query ++ "?"] else expanded
  let expanded :=
    if ! (["what", "how", "why", "when", "where"].any
        (fun w => startsWithStr (pyLower query) w)) then
      expanded ++ ["what is " ++ query]
    else expanded
  expanded

/-- The per-variant similarity queries and list extension of
`ContextualRetrieverStrategy.retrieve`, in variant order. -/
def searchAll (vector_store : VS) : List String → Except Err (List Doc)
  | [] => .ok []
  | q :: qs =>
    match vector_store q 3 with
    | .error e => .error e
    | .ok results =>
      match searchAll vector_store qs with
      | .error e => .error e
      | .ok rest => .ok (results ++ rest)

/-- The merged per-variant similarity results (`all_results`) of
`ContextualRetrieverStrategy.retrieve`. -/
def ContextualRetrieverStrategy.merged (query : String) (vector_store : VS) :
    Except Err (List Doc) :=
  searchAll vector_store (ContextualRetrieverStrategy.expand_query query)

/-- Loop body of `ContextualRetrieverStrategy._deduplicate_results`:
keep a result when the key formed from the first 100 characters of its
content was not seen before. -/
def dedupGo : List Doc → List String → List Doc
  | [], _ => []
  | r :: rs, seen =>
    if takeChars r.content 100 ∈ seen then dedupGo rs seen
    else r :: dedupGo rs (takeChars r.content 100 :: seen)

/-- `ContextualRetrieverStrategy._deduplicate_results`. -/
def ContextualRetrieverStrategy.deduplicate_results (results : List Doc) :
    List Doc :=
  dedupGo results []

/-- Loop of `ContextualRetrieverStrategy._rank_results`: each iteration
divides the overlap count by `len(query_terms)`, so the first iteration
raises `ZeroDivisionError` when the query-term set is empty; there is no
emptiness guard in the source. -/
def rankScoreList (query_terms : List String) :
    List Doc → Except Err (List Doc)
  | [] => .ok []
  | result :: rest =>
    if query_terms.length = 0 then .error "ZeroDivisionError"
    else
      match rankScoreList query_terms rest with
      | .error e => .error e
      | .ok scored =>
        .ok ({ result with relevance_score := some ((((query_terms.filter
            (fun t => t ∈ termSet result.content)).length : ℚ)) /
              (query_terms.length : ℚ)) } :: scored)

/-- `ContextualRetrieverStrategy._rank_results`: score every result
against the original query, then `sorted(..., reverse=True)`. -/
def ContextualRetrieverStrategy.rank_results (results : List Doc)
    (original_query : String) : Except Err (List Doc) :=
  match rankScoreList (termSet original_query) results with
  | .error e => .error e
  | .ok scored =>
    .ok (sortByDesc (fun x => x.relevance_score.getD 0) scored)

/-- `ContextualRetrieverStrategy.retrieve`: expand, search each variant
with k=3, merge, deduplicate, rank against the original query, take 5;
on any error inside the `try` block fall back to the basic strategy. -/
def ContextualRetrieverStrategy.retrieve (query : String)
    (vector_store : VS) : List Doc :=
  match ((match ContextualRetrieverStrategy.merged query vector_store with
         | .error e => .error e
         | .ok all_results =>
           match ContextualRetrieverStrategy.rank_results
               (ContextualRetrieverStrategy.deduplicate_results all_results)
               query with
           | .error e => .error e
           | .ok ranked_results => Except.ok (ranked_results.take 5)) :
        Except Err (List Doc)) with
  | .ok r => r
  | .error _ => BasicRetrieverStrategy.retrieve query vector_store

/-! ### Orchestrator (src/main.py) -/

/-- The agent state: a vector-store handle, the configured retrieval
strategy, and the LLM adapter whose `generate_response` yields a
stream of fragments (or raises). -/
structure Agent where
  vector_store : VS
  retriever : String → VS → List Doc
  llm : String → String → Except Err (List String)

/-- The fixed fallback sentence of `ask_question` and
`ask_question_stream` when retrieval finds nothing. -/
def no_info_msg : String :=
  "I couldn" ++ String.singleton (Char.ofNat 39) ++
    "t find any relevant information in the knowledge base to answer your question."

/-- Rendering of a score in the context block.  The source formats the
float with three decimals; the exact text of the rendering is not part
of any claim, only its position in the block. -/
def fmt_score (q : ℚ) : String :=
  toString q.num ++ "/" ++ toString q.den

/-- The `filename` metadata lookup with default `"Unknown"`. -/
def metaFilename (doc : Doc) : String :=
  match Metadata.get? doc.metadata "filename" with
  | some (MVal.s s) => s
  | _ => "Unknown"

/-- `PDFQAAgent._prepare_context`: one block per snippet, 1-indexed,
joined with newlines. -/
def PDFQAAgent.prepare_context (relevant_docs : List Doc) : String :=
  String.intercalate "\n" (relevant_docs.enum.map (fun p =>
    "\nDocument " ++ toString (p.1 + 1) ++ ":\nSource: " ++
      metaFilename p.2 ++ "\nRelevance Score: " ++
      fmt_score (p.2.similarity_score.getD 0) ++ "\nContent: " ++
      p.2.content ++ "\n---\n"))

/-- `PDFQAAgent.ask_question`: retrieve, short-circuit on the empty
result, otherwise accumulate the LLM stream; a raised error becomes an
answer-shaped error string. -/
def PDFQAAgent.ask_question (agent : Agent) (question : String) : String :=
  let relevant_docs := agent.retriever question agent.vector_store
  if relevant_docs.isEmpty then no_info_msg
  else
    match agent.llm question (PDFQAAgent.prepare_context relevant_docs) with
    | .ok response_parts => String.join response_parts
    | .error e => "An error occurred while processing your question: " ++ e

/-- `PDFQAAgent.ask_question_stream`: the fragments the generator
yields, in order. -/
def PDFQAAgent.ask_question_stream (agent : Agent) (question : String) :
    List String :=
  let relevant_docs := agent.retriever question agent.vector_store
  if relevant_docs.isEmpty then [no_info_msg]
  else
    match agent.llm question (PDFQAAgent.prepare_context relevant_docs) with
    | .ok parts => parts
    | .error e => ["An error occurred while processing your question: " ++ e]

/-- `PDFProcessor.process_pdf`: extraction (external, fallible) then the
configured chunking strategy; either failure propagates. -/
def PDFProcessor.process_pdf (extract_text : Except Err String)
    (chunk_document : String → Metadata → Except Err (List Chunk))
    (metadata : Metadata) : Except Err (List Chunk) :=
  match extract_text with
  | .error e => .error e
  | .ok text => chunk_document text metadata

/-- `PDFQAAgent.process_pdf`: run the pipeline, return `false` on zero
chunks, add to the vector store, return `true`; any raised error is
caught and turned into `false`. -/
def PDFQAAgent.process_pdf (extract_text : Except Err String)
    (chunk_document : String → Metadata → Except Err (List Chunk))
    (metadata : Metadata)
    (add_documents : List Chunk → Except Err Unit) : Bool :=
  match PDFProcessor.process_pdf extract_text chunk_document metadata with
  | .error _ => false
  | .ok chunks =>
    if chunks.isEmpty then false
    else
      match add_documents chunks with
      | .error _ => false
      | .ok _ => true

/-- `PDFQAAgent.clear_knowledge_base` over an abstract handle type:
delete the collection held by the current handle, then construct a fresh
handle and install it; a raised error at either step is caught, `false`
is returned and the handle assignment never happens. -/
def PDFQAAgent.clear_knowledge_base {σ : Type} (vs0 : σ)
    (delete_collection : σ → Except Err Unit)
    (fresh_store : Except Err σ) : Bool × σ :=
  match delete_collection vs0 with
  | .error _ => (false, vs0)
  | .ok _ =>
    match fresh_store with
    | .error _ => (false, vs0)
    | .ok vs1 => (true, vs1)

/-! ### Helper lemmas -/

theorem Metadata.get?_set_self (m : Metadata) (k : String) (v : MVal) :
    Metadata.get? (Metadata.set m k v) k = some v := by
  rw [Metadata.set, Metadata.get?, List.find?_cons_of_pos]
  · rfl
  · simp

/-- A successful ranking pass scores every result by the overlap ratio
with the query-term list, in order. -/
theorem rankScoreList_ok (qts : List String) (l out : List Doc)
    (h : rankScoreList qts l = Except.ok out) :
    out = l.map (fun r => { r with relevance_score := some ((((qts.filter
      (fun t => t ∈ termSet r.content)).length : ℚ)) /
        (qts.length : ℚ)) }) := by
  induction l generalizing out with
  | nil =>
    rw [rankScoreList] at h
    simp only [Except.ok.injEq] at h
    simp [← h]
  | cons r rs ih =>
    rw [rankScoreList] at h
    by_cases hq : qts.length = 0
    · rw [if_pos hq] at h
      exact absurd h (by simp)
    · rw [if_neg hq] at h
      cases hrec : rankScoreList qts rs with
      | error e =>
        rw [hrec] at h
        exact absurd h (by simp)
      | ok scored =>
        rw [hrec] at h
        simp only [Except.ok.injEq] at h
        rw [← h, List.map_cons, ih scored hrec]

/-- Ranking a nonempty list against an empty query-term list raises. -/
theorem rankScoreList_empty_terms (r : Doc) (rs : List Doc) :
    rankScoreList [] (r :: rs) = Except.error "ZeroDivisionError" := by
  simp [rankScoreList]

/-- Keys of the deduplicated output avoid `seen` and are distinct. -/
theorem dedupGo_not_seen_nodup (l : List Doc) (seen : List String) :
    (∀ x ∈ dedupGo l seen, takeChars x.content 100 ∉ seen) ∧
      ((dedupGo l seen).map (fun x => takeChars x.content 100)).Nodup := by
  induction l generalizing seen with
  | nil => simp [dedupGo]
  | cons r rs ih =>
    by_cases h : takeChars r.content 100 ∈ seen
    · simpa [dedupGo, h] using ih seen
    · rw [dedupGo, if_neg h]
      constructor
      · intro x hx
        rcases List.mem_cons.mp hx with hxr | hxm
        · rw [hxr]; exact h
        · intro hmem
          exact (ih (takeChars r.content 100 :: seen)).1 x hxm
            (List.mem_cons_of_mem _ hmem)
      · rw [List.map_cons, List.nodup_cons]
        refine ⟨?_, (ih (takeChars r.content 100 :: seen)).2⟩
        intro hmem
        rcases List.mem_map.mp hmem with ⟨x, hx, hkey⟩
        exact (ih (takeChars r.content 100 :: seen)).1 x hx
          (hkey ▸ List.mem_cons_self _ _)

/-- Every input key is either already seen or represented in the
deduplicated output. -/
theorem dedupGo_covers (l : List Doc) (seen : List String) :
    ∀ x ∈ l, takeChars x.content 100 ∈ seen ∨
      ∃ u ∈ dedupGo l seen,
        takeChars u.content 100 = takeChars x.content 100 := by
  induction l generalizing seen with
  | nil => simp
  | cons r rs ih =>
    intro x hx
    by_cases h : takeChars r.content 100 ∈ seen
    · rw [dedupGo, if_pos h]
      rcases List.mem_cons.mp hx with hxr | hxm
      · exact Or.inl (hxr ▸ h)
      · exact ih seen x hxm
    · rw [dedupGo, if_neg h]
      rcases List.mem_cons.mp hx with hxr | hxm
      · exact Or.inr ⟨r, List.mem_cons_self _ _, by rw [hxr]⟩
      · rcases ih (takeChars r.content 100 :: seen) x hxm with hseen | ⟨u, hu, hk⟩
        · rcases List.mem_cons.mp hseen with heq | hs
          · exact Or.inr ⟨r, List.mem_cons_self _ _, heq.symm⟩
          · exact Or.inl hs
        · exact Or.inr ⟨u, List.mem_cons_of_mem _ hu, hk⟩

/-! ### Spec-side definitions

These two definitions follow the wording of the claims (not the source);
the refinement theorems compare the source-side pipeline against them. -/

/-- Spec-side per-candidate scoring of hybrid retrieval, from the claim
text: keyword score is the number of distinct lowercased whitespace-split
query terms occurring among the distinct content terms, divided by the
number of distinct query terms (0 for an empty query-term set), and
`hybrid_score = 0.7 * similarity_score + 0.3 * keyword_score`. -/
def hybridDocSpec (query : String) (doc : Doc) : Doc :=
  let qts := termSet query
  let keyword_score : ℚ :=
    if qts = [] then 0
    else ((qts.filter (fun t => t ∈ termSet doc.content)).length : ℚ) /
      (qts.length : ℚ)
  { doc with hybrid_score := some ((7 : ℚ)/10 * doc.similarity_score.getD 0 +
      (3 : ℚ)/10 * keyword_score) }

/-- Spec-side re-ranking score of contextual retrieval, from the claim
text: the keyword-overlap ratio of a snippet against the original
(non-expanded) query. -/
def contextualRelevanceSpec (query : String) (r : Doc) : Doc :=
  { r with relevance_score := some ((((((termSet query).filter
      (fun t => t ∈ termSet r.content)).length : ℚ)) /
        (((termSet query).length : ℚ)))) }

/-! ### Claim theorems -/

/-- C8: for every query, `_expand_query` produces, in order, the
original query; the original with a trailing question mark appended,
included exactly when the original does not already end with one; and
the `"what is "` variant, included exactly when the lowercased query
does not already start with one of the interrogative markers `what`,
`how`, `why`, `when`, `where`; hence at most three variants. -/
theorem ContextualRetrieverStrategy.expand_query_spec (query : String) :
    ContextualRetrieverStrategy.expand_query query =
      [query] ++ (if endsWithChar query '?' then [] else [query ++ "?"]) ++
        (if ["what", "how", "why", "when", "where"].any
            (fun w => startsWithStr (pyLower query) w) then []
          else ["what is " ++ query]) ∧
    (ContextualRetrieverStrategy.expand_query query).length ≤ 3 := by
  by_cases h1 : endsWithChar query '?' = true <;>
    by_cases h2 : (["what", "how", "why", "when", "where"].any
      (fun w => startsWithStr (pyLower query) w)) = true <;>
    simp [ContextualRetrieverStrategy.expand_query, h1, h2]

/-- C9: both factories are total functions on the strategy tag; a tag
outside the known set falls back to the recursive chunking strategy,
resp. the basic retriever strategy, instead of being rejected. -/
theorem factory_unknown_defaults (s r : String)
    (hs : s ∉ ["recursive", "semantic", "contextual", "hybrid"])
    (hr : r ∉ ["basic", "hybrid", "contextual"]) :
    ChunkingStrategyFactory.create_strategy s = ChunkStrategyKind.recursive ∧
      RetrieverFactory.create_retriever r = RetrieverKind.basic := by
  constructor
  · simp only [ChunkingStrategyFactory.create_strategy]
    rw [if_neg hs]
    decide
  · simp only [RetrieverFactory.create_retriever]
    rw [if_neg hr]
    decide

/-- Witness for C9 at the unknown tag `"bogus"`. -/
theorem factory_unknown_defaults_witness :
    ChunkingStrategyFactory.create_strategy "bogus" = ChunkStrategyKind.recursive ∧
      RetrieverFactory.create_retriever "bogus" = RetrieverKind.basic :=
  factory_unknown_defaults "bogus" "bogus" (by decide) (by decide)

/-- C6: `process_pdf` returns a boolean and never raises; it is `true`
exactly when the pipeline succeeded with a nonempty chunk list and the
chunks were then accepted by the vector-store add operation, and it is
`false` on an extraction failure in particular. -/
theorem PDFQAAgent.process_pdf_spec (extract_text : Except Err String)
    (chunk_document : String → Metadata → Except Err (List Chunk))
    (metadata : Metadata) (add_documents : List Chunk → Except Err Unit) :
    (PDFQAAgent.process_pdf extract_text chunk_document metadata add_documents = true ↔
      ∃ chunks,
        PDFProcessor.process_pdf extract_text chunk_document metadata = Except.ok chunks ∧
          chunks ≠ [] ∧ add_documents chunks = Except.ok ()) ∧
    (∀ e, extract_text = Except.error e →
      PDFQAAgent.process_pdf extract_text chunk_document metadata add_documents = false) := by
  constructor
  · cases hp : PDFProcessor.process_pdf extract_text chunk_document metadata with
    | error e => simp [PDFQAAgent.process_pdf, hp]
    | ok chunks =>
      cases chunks with
      | nil => simp [PDFQAAgent.process_pdf, hp]
      | cons c cs =>
        cases ha : add_documents (c :: cs) with
        | error e => simp [PDFQAAgent.process_pdf, hp, ha]
        | ok u => cases u; simp [PDFQAAgent.process_pdf, hp, ha]
  · intro e he
    simp [PDFQAAgent.process_pdf, PDFProcessor.process_pdf, he]

/-- The successful pipeline and vector-store stubs for the C6 witness. -/
def extW : Except Err String := Except.ok "text"

def chkW : String → Metadata → Except Err (List Chunk) :=
  fun _ _ => Except.ok [{ content := "alpha", metadata := [] }]

def addW : List Chunk → Except Err Unit := fun _ => Except.ok ()

/-- Witness for C6: a successful run returns `true`. -/
theorem PDFQAAgent.process_pdf_spec_witness :
    PDFQAAgent.process_pdf extW chkW [] addW = true :=
  (PDFQAAgent.process_pdf_spec extW chkW [] addW).1.mpr
    ⟨[{ content := "alpha", metadata := [] }], rfl, by decide, rfl⟩

/-- C7: `clear_knowledge_base` returns `(true, fresh handle)` exactly
when deletion succeeded and a fresh store was constructed; a raised
error at either step yields `false` with the previous handle retained
unchanged. -/
theorem PDFQAAgent.clear_knowledge_base_spec {σ : Type} (vs0 : σ)
    (delete_collection : σ → Except Err Unit) (fresh_store : Except Err σ) :
    (∀ vs1, PDFQAAgent.clear_knowledge_base vs0 delete_collection fresh_store = (true, vs1) ↔
      (delete_collection vs0 = Except.ok () ∧ fresh_store = Except.ok vs1)) ∧
    (∀ e, delete_collection vs0 = Except.error e →
      PDFQAAgent.clear_knowledge_base vs0 delete_collection fresh_store = (false, vs0)) ∧
    (∀ e, fresh_store = Except.error e →
      PDFQAAgent.clear_knowledge_base vs0 delete_collection fresh_store = (false, vs0)) := by
  refine ⟨?_, ?_, ?_⟩
  · intro vs1
    cases hd : delete_collection vs0 with
    | error e => simp [PDFQAAgent.clear_knowledge_base, hd]
    | ok u =>
      cases u
      cases hf : fresh_store with
      | error e => simp [PDFQAAgent.clear_knowledge_base, hd, hf]
      | ok v => simp [PDFQAAgent.clear_knowledge_base, hd, hf, eq_comm]
  · intro e he
    simp [PDFQAAgent.clear_knowledge_base, he]
  · intro e he
    cases hd : delete_collection vs0 with
    | error f => simp [PDFQAAgent.clear_knowledge_base, hd]
    | ok u => cases u; simp [PDFQAAgent.clear_knowledge_base, hd, he]

/-- The deletion stub for the C7 witness. -/
def delOkW : Nat → Except Err Unit := fun _ => Except.ok ()

/-- Witness for C7: a successful clear installs the fresh handle. -/
theorem PDFQAAgent.clear_knowledge_base_spec_witness :
    PDFQAAgent.clear_knowledge_base (0 : Nat) delOkW (Except.ok 1) = (true, 1) :=
  ((PDFQAAgent.clear_knowledge_base_spec (0 : Nat) delOkW (Except.ok 1)).1 1).mpr
    ⟨rfl, rfl⟩

/-- A semantic splitter that raises (models an embedding failure inside
the semantic chunker). -/
def semFail : SplitFn := fun _ => Except.error "boom"

/-- A recursive splitter returning one piece. -/
def recOne : SplitFn := fun _ => Except.ok ["alpha"]

/-- A text one character over the 10000-character routing threshold. -/
def bigText : String := String.mk (List.replicate 10001 'a')

theorem bigText_len : bigText.length = 10001 := by
  rw [bigText, String.length_mk, List.length_replicate]

/-- The metadata the recursive strategy attaches to the single piece of
`recOne` under empty document metadata. -/
def mdRec : Metadata :=
  [("chunking_strategy", MVal.s "recursive"), ("chunk_size", MVal.n 5),
    ("chunk_id", MVal.n 0)]

/-- Counterexample to C1: on the fallback path (semantic delegate fails
on a text over 10000 characters) the hybrid strategy returns the
recursive result without the tag rewrite, so the chunk metadata carries
`chunking_strategy = "recursive"`, not `"hybrid"`. -/
theorem HybridChunkingStrategy.fallback_tag_counterexample :
    HybridChunkingStrategy.chunk_text semFail recOne bigText [] =
      Except.ok [{ content := "alpha", metadata := mdRec }] ∧
    ¬ (∀ c ∈ [({ content := "alpha", metadata := mdRec } : Chunk)],
        Metadata.get? c.metadata "chunking_strategy" = some (MVal.s "hybrid")) := by
  constructor
  · simp only [HybridChunkingStrategy.chunk_text, bigText_len]
    norm_num
    decide
  · intro h
    have := h { content := "alpha", metadata := mdRec } (List.mem_singleton.mpr rfl)
    exact absurd this (by decide)

/-- Every chunk wrapped by the recursive strategy carries the tag
`"recursive"`. -/
theorem recursive_chunks_tagged (split_rec : SplitFn)
    (text : String) (metadata : Metadata) (chunks : List Chunk)
    (h : RecursiveChunkingStrategy.chunk_text split_rec text metadata =
      Except.ok chunks) :
    ∀ c ∈ chunks,
      Metadata.get? c.metadata "chunking_strategy" = some (MVal.s "recursive") := by
  rw [RecursiveChunkingStrategy.chunk_text] at h
  cases hs : split_rec text with
  | error e =>
    rw [hs] at h
    exact absurd h (by simp)
  | ok pieces =>
    rw [hs] at h
    simp only [Except.ok.injEq] at h
    intro c hc
    rw [← h] at hc
    rcases List.mem_map.mp hc with ⟨p, _, hp⟩
    rw [← hp]
    exact Metadata.get?_set_self _ _ _

/-- C1 (amended): whenever the delegate chosen by the 10000-character
routing succeeds, every chunk the hybrid strategy returns carries
`chunking_strategy = "hybrid"`; on the internal-failure fallback path
the chunks come from the recursive strategy untouched and carry
`"recursive"` instead. -/
theorem HybridChunkingStrategy.chunk_text_tag (split_sem split_rec : SplitFn)
    (text : String) (metadata : Metadata) :
    (∀ delegated,
      (if text.length > 10000 then
          SemanticChunkingStrategy.chunk_text split_sem text metadata
        else
          RecursiveChunkingStrategy.chunk_text split_rec text metadata) =
        Except.ok delegated →
      ∃ chunks,
        HybridChunkingStrategy.chunk_text split_sem split_rec text metadata =
          Except.ok chunks ∧
        ∀ c ∈ chunks,
          Metadata.get? c.metadata "chunking_strategy" = some (MVal.s "hybrid")) ∧
    (∀ e,
      (if text.length > 10000 then
          SemanticChunkingStrategy.chunk_text split_sem text metadata
        else
          RecursiveChunkingStrategy.chunk_text split_rec text metadata) =
        Except.error e →
      ∀ chunks,
        HybridChunkingStrategy.chunk_text split_sem split_rec text metadata =
          Except.ok chunks →
        ∀ c ∈ chunks,
          Metadata.get? c.metadata "chunking_strategy" = some (MVal.s "recursive")) := by
  constructor
  · intro delegated h
    refine ⟨delegated.map tagHybrid, ?_, ?_⟩
    · simp only [HybridChunkingStrategy.chunk_text, h]
    · intro c hc
      rcases List.mem_map.mp hc with ⟨d, _, hd⟩
      rw [← hd, tagHybrid]
      exact Metadata.get?_set_self _ _ _
  · intro e he chunks hch
    simp only [HybridChunkingStrategy.chunk_text, he] at hch
    exact recursive_chunks_tagged split_rec text metadata
      chunks hch

/-- Witness for C1 (amended): a short text routed to the recursive
delegate, which succeeds; the returned chunk is tagged `"hybrid"`. -/
theorem HybridChunkingStrategy.chunk_text_tag_witness :
    ∃ chunks,
      HybridChunkingStrategy.chunk_text semFail recOne "hello" [] =
        Except.ok chunks ∧
      ∀ c ∈ chunks,
        Metadata.get? c.metadata "chunking_strategy" = some (MVal.s "hybrid") :=
  (HybridChunkingStrategy.chunk_text_tag semFail recOne "hello" []).1
    [{ content := "alpha", metadata := mdRec }] (by decide)

/-- C4: the hybrid strategy delegates to the semantic splitter exactly
when the text exceeds 10000 characters and to the recursive splitter
otherwise, rewriting tags on success; if the chosen delegate raises, it
returns the result of the recursive strategy instead. -/
theorem HybridChunkingStrategy.chunk_text_routing (split_sem split_rec : SplitFn)
    (text : String) (metadata : Metadata) :
    (text.length > 10000 → ∀ l,
      SemanticChunkingStrategy.chunk_text split_sem text metadata = Except.ok l →
      HybridChunkingStrategy.chunk_text split_sem split_rec text metadata =
        Except.ok (l.map tagHybrid)) ∧
    (¬ text.length > 10000 → ∀ l,
      RecursiveChunkingStrategy.chunk_text split_rec text metadata = Except.ok l →
      HybridChunkingStrategy.chunk_text split_sem split_rec text metadata =
        Except.ok (l.map tagHybrid)) ∧
    (∀ e, (if text.length > 10000 then
            SemanticChunkingStrategy.chunk_text split_sem text metadata
          else
            RecursiveChunkingStrategy.chunk_text split_rec text metadata) =
          Except.error e →
      HybridChunkingStrategy.chunk_text split_sem split_rec text metadata =
        RecursiveChunkingStrategy.chunk_text split_rec text metadata) := by
  refine ⟨?_, ?_, ?_⟩
  · intro hlen l hsem
    simp only [HybridChunkingStrategy.chunk_text, if_pos hlen, hsem]
  · intro hlen l hrec
    simp only [HybridChunkingStrategy.chunk_text, if_neg hlen, hrec]
  · intro e herr
    simp only [HybridChunkingStrategy.chunk_text, herr]

/-- Witness for C4 (fallback conjunct): the failing semantic delegate on
a long text makes the hybrid strategy return the recursive result. -/
theorem HybridChunkingStrategy.chunk_text_routing_witness :
    HybridChunkingStrategy.chunk_text semFail recOne bigText [] =
      RecursiveChunkingStrategy.chunk_text recOne bigText [] :=
  (HybridChunkingStrategy.chunk_text_routing semFail recOne bigText []).2.2
    "boom" (by simp only [bigText_len]; norm_num; rfl)

/-- C2: with the default weights, hybrid retrieval asks the vector
store for the top 8 candidates, scores each one exactly as the
spec-side `hybridDocSpec` does, and returns the first 5 of a
descending `hybrid_score` ordering of the scored candidates (the
returned prefix comes from a list that is sorted and is a permutation
of the scored candidate list). -/
theorem HybridRetrieverStrategy.retrieve_spec (query : String)
    (vector_store : VS) (docs : List Doc)
    (h : vector_store query 8 = Except.ok docs) :
    HybridRetrieverStrategy.retrieve (7/10) (3/10) query vector_store =
      (sortByDesc (fun x => x.hybrid_score.getD 0)
        (docs.map (hybridDocSpec query))).take 5 ∧
    (sortByDesc (fun x => x.hybrid_score.getD 0)
      (docs.map (hybridDocSpec query))).Sorted
        (fun a b => b.hybrid_score.getD 0 ≤ a.hybrid_score.getD 0) ∧
    (sortByDesc (fun x => x.hybrid_score.getD 0)
      (docs.map (hybridDocSpec query))).Perm (docs.map (hybridDocSpec query)) := by
  refine ⟨?_, sortByDesc_sorted _ _, sortByDesc_perm _ _⟩
  simp only [HybridRetrieverStrategy.retrieve, h, List.isEmpty_iff]
  rfl

/-- The similarity results for the C2 witness: a single candidate, so
the sort needs no score comparisons. -/
def docH : Doc :=
  { content := "apple pie"
    metadata := []
    similarity_score := some (4/5) }

def vsH : VS := fun _ _ => Except.ok [docH]

/-- Witness for C2 at a one-candidate store. -/
theorem HybridRetrieverStrategy.retrieve_spec_witness :
    HybridRetrieverStrategy.retrieve (7/10) (3/10) "apple" vsH =
      (sortByDesc (fun x => x.hybrid_score.getD 0)
        ([docH].map (hybridDocSpec "apple"))).take 5 :=
  (HybridRetrieverStrategy.retrieve_spec "apple" vsH [docH] rfl).1

/-- C3: when retrieval returns no snippets, `ask_question` returns
exactly the fixed fallback sentence, `ask_question_stream` yields
exactly that one fragment, and the answer does not depend on the LLM
adapter (it is never invoked). -/
theorem PDFQAAgent.ask_question_empty (agent : Agent) (question : String)
    (h : agent.retriever question agent.vector_store = []) :
    PDFQAAgent.ask_question agent question = no_info_msg ∧
    PDFQAAgent.ask_question_stream agent question = [no_info_msg] ∧
    ∀ llm2, PDFQAAgent.ask_question { agent with llm := llm2 } question =
      no_info_msg := by
  refine ⟨?_, ?_, ?_⟩
  · simp [PDFQAAgent.ask_question, h]
  · simp [PDFQAAgent.ask_question_stream, h]
  · intro llm2
    simp [PDFQAAgent.ask_question, h]

/-- The agent with an empty knowledge base for the C3 witness. -/
def agW : Agent :=
  { vector_store := fun _ _ => Except.ok []
    retriever := fun _ _ => []
    llm := fun _ _ => Except.ok ["an answer"] }

/-- Witness for C3. -/
theorem PDFQAAgent.ask_question_empty_witness :
    PDFQAAgent.ask_question agW "any question" = no_info_msg :=
  (PDFQAAgent.ask_question_empty agW "any question" rfl).1

/-- C5: in contextual retrieval, after merging the per-variant results,
entries are deduplicated on the first 100 characters of their content
(keys of the deduplicated list are distinct and every merged entry has a
representative), the deduplicated list is re-ranked by keyword-overlap
ratio against the original query (the ranked list is a permutation of
the spec-side-scored deduplicated list, sorted descending), and at most
5 results are returned. -/
theorem ContextualRetrieverStrategy.dedup_rank_spec (vector_store : VS)
    (query : String) (ms out : List Doc)
    (hm : ContextualRetrieverStrategy.merged query vector_store = Except.ok ms)
    (hr : ContextualRetrieverStrategy.rank_results
        (ContextualRetrieverStrategy.deduplicate_results ms) query =
      Except.ok out) :
    ContextualRetrieverStrategy.retrieve query vector_store = out.take 5 ∧
    (ContextualRetrieverStrategy.retrieve query vector_store).length ≤ 5 ∧
    ((ContextualRetrieverStrategy.deduplicate_results ms).map
      (fun x => takeChars x.content 100)).Nodup ∧
    (∀ x ∈ ms, ∃ u ∈ ContextualRetrieverStrategy.deduplicate_results ms,
      takeChars u.content 100 = takeChars x.content 100) ∧
    out.Perm ((ContextualRetrieverStrategy.deduplicate_results ms).map
      (contextualRelevanceSpec query)) ∧
    out.Sorted (fun a b => b.relevance_score.getD 0 ≤ a.relevance_score.getD 0) := by
  have hret : ContextualRetrieverStrategy.retrieve query vector_store =
      out.take 5 := by
    simp only [ContextualRetrieverStrategy.retrieve, hm, hr]
  cases hrsl : rankScoreList (termSet query)
      (ContextualRetrieverStrategy.deduplicate_results ms) with
  | error e =>
    rw [ContextualRetrieverStrategy.rank_results] at hr
    rw [hrsl] at hr
    exact absurd hr (by simp)
  | ok scored =>
    rw [ContextualRetrieverStrategy.rank_results] at hr
    rw [hrsl] at hr
    simp only [Except.ok.injEq] at hr
    have hscored := rankScoreList_ok (termSet query) _ scored hrsl
    refine ⟨hret, ?_, (dedupGo_not_seen_nodup ms []).2, ?_, ?_, ?_⟩
    · rw [hret]
      simp [List.length_take]
    · intro x hx
      rcases dedupGo_covers ms [] x hx with hmem | hex
      · simp at hmem
      · exact hex
    · rw [← hr]
      refine (sortByDesc_perm _ _).trans ?_
      rw [hscored]
      exact List.Perm.refl _
    · rw [← hr]
      exact sortByDesc_sorted _ _

/-- A snippet used by the C5 and C10 witnesses. -/
def docP : Doc := { content := "apple pie", metadata := [] }

/-- A store whose every similarity query returns the one snippet, so
the three expanded variants produce three duplicate entries. -/
def vsC5 : VS := fun _ _ => Except.ok [docP]

/-- Witness for C5 at the duplicate-producing store. -/
theorem ContextualRetrieverStrategy.dedup_rank_spec_witness :
    ContextualRetrieverStrategy.retrieve "apple" vsC5 =
      ((ContextualRetrieverStrategy.rank_results
        (ContextualRetrieverStrategy.deduplicate_results [docP, docP, docP])
        "apple").toOption.getD []).take 5 :=
  (ContextualRetrieverStrategy.dedup_rank_spec vsC5 "apple" [docP, docP, docP]
    _ rfl rfl).1

/-- An empty vector store for the C10 counterexample. -/
def vsEmptyW : VS := fun _ _ => Except.ok []

/-- Counterexample to C10 as stated: for the empty query (empty
query-term set) over an empty store, the merged result list is empty,
so the re-ranking pass performs no division and returns `ok` instead of
raising a division-by-zero error. -/
theorem ContextualRetrieverStrategy.divzero_counterexample :
    termSet "" = [] ∧
    ContextualRetrieverStrategy.merged "" vsEmptyW = Except.ok [] ∧
    ContextualRetrieverStrategy.rank_results
      (ContextualRetrieverStrategy.deduplicate_results []) "" = Except.ok [] ∧
    ¬ ∃ e, ContextualRetrieverStrategy.rank_results
      (ContextualRetrieverStrategy.deduplicate_results []) "" =
        Except.error e := by
  have h3 : ContextualRetrieverStrategy.rank_results
      (ContextualRetrieverStrategy.deduplicate_results []) "" =
      Except.ok [] := rfl
  refine ⟨by decide, rfl, h3, ?_⟩
  rintro ⟨e, he⟩
  rw [h3] at he
  simp at he

/-- C10 (amended): when the query-term set is empty and the merged,
deduplicated candidate list is nonempty, the re-ranking loop raises
`ZeroDivisionError` (there is no emptiness guard, unlike the hybrid
strategy), the `retrieve` handler catches it, and `retrieve` returns
the basic-strategy fallback result. -/
theorem ContextualRetrieverStrategy.retrieve_divzero (vector_store : VS)
    (query : String) (ms : List Doc)
    (hq : termSet query = [])
    (hm : ContextualRetrieverStrategy.merged query vector_store = Except.ok ms)
    (hne : ContextualRetrieverStrategy.deduplicate_results ms ≠ []) :
    ContextualRetrieverStrategy.rank_results
      (ContextualRetrieverStrategy.deduplicate_results ms) query =
      Except.error "ZeroDivisionError" ∧
    ContextualRetrieverStrategy.retrieve query vector_store =
      BasicRetrieverStrategy.retrieve query vector_store := by
  obtain ⟨r, rs, hcons⟩ := List.exists_cons_of_ne_nil hne
  have hrank : ContextualRetrieverStrategy.rank_results
      (ContextualRetrieverStrategy.deduplicate_results ms) query =
      Except.error "ZeroDivisionError" := by
    rw [ContextualRetrieverStrategy.rank_results, hcons, hq,
      rankScoreList_empty_terms]
  refine ⟨hrank, ?_⟩
  simp only [ContextualRetrieverStrategy.retrieve, hm, hrank]

/-- Witness for C10 (amended): the empty query against a one-snippet
store takes the division-by-zero fallback. -/
theorem ContextualRetrieverStrategy.retrieve_divzero_witness :
    ContextualRetrieverStrategy.retrieve "" vsC5 =
      BasicRetrieverStrategy.retrieve "" vsC5 :=
  (ContextualRetrieverStrategy.retrieve_divzero vsC5 "" [docP, docP, docP]
    (by decide) rfl (by decide)).2

end PDFQA
